import Mathlib

/-!
Verification of the Miaaula spaced-repetition core: a shallow embedding of
the reference canonicalizer, the gold-window checker, the SRS memory model
(calculateNewSrsState, calculateRetrievability, calculateCurrentDomain) and
the aggregation engine (getLitRefSmartStatus), together with theorems that
settle the specification claims.

Strings are embedded as lists of characters.  The JavaScript runtime
primitives that are not themselves code of this repository (Unicode NFKC
normalization and full case mapping) are parameters of the embedding,
collected in a JsRuntime record; theorems that depend on their behaviour take
the relevant algebraic laws (idempotence, stability under case mapping) as
hypotheses.  ISO date strings appear in the embedding as their parse result
(an integer millisecond timestamp, or nothing for absent or unparseable
input), since Date parsing and locale formatting are engine behaviour as
well.  Numbers are embedded as real numbers.
-/

namespace Miaaula

abbrev Str := List Char

/-- JavaScript WhiteSpace and LineTerminator set, as removed by
String.prototype.trim. -/
def isJsWs (c : Char) : Bool :=
  c.toNat = 0x9 || c.toNat = 0xA || c.toNat = 0xB || c.toNat = 0xC ||
  c.toNat = 0xD || c.toNat = 0x20 || c.toNat = 0xA0 || c.toNat = 0x1680 ||
  (0x2000 ≤ c.toNat && c.toNat ≤ 0x200A) || c.toNat = 0x2028 ||
  c.toNat = 0x2029 || c.toNat = 0x202F || c.toNat = 0x205F ||
  c.toNat = 0x3000 || c.toNat = 0xFEFF

/-- Zero-width characters stripped by the canonicalizer (the source regex
class U+200B..U+200D, U+FEFF). -/
def isZeroWidth (c : Char) : Bool :=
  (0x200B ≤ c.toNat && c.toNat ≤ 0x200D) || c.toNat = 0xFEFF

def dropTrailing (p : Char → Bool) (s : Str) : Str :=
  (s.reverse.dropWhile p).reverse

/-- String.prototype.trim: drop leading and trailing whitespace. -/
def trimS (s : Str) : Str := dropTrailing isJsWs (s.dropWhile isJsWs)

/-- The .replace of the canonicalizer removing zero-width characters. -/
def stripZW (s : Str) : Str := s.filter (fun c => !isZeroWidth c)

/-- Unicode string primitives of the JavaScript engine used by the source.
They are not code of this repository, so they are parameters of the
embedding. -/
structure JsRuntime where
  nfkc : Str → Str
  toLower : Str → Str
  toUpper : Str → Str

/-- Degenerate runtime instance used for concrete evaluations on plain
lower-case ASCII data, where the real primitives act as the identity. -/
def idRuntime : JsRuntime := { nfkc := id, toLower := id, toUpper := id }

def trilhaKey : Str := "TRILHA_".toList

/-- canonicalizeLitRef from the source: empty input maps to the empty
string; values whose trimmed upper-case form starts with the structured
track tag are preserved verbatim (trimmed only); everything else is
NFKC-normalized, stripped of zero-width characters, trimmed and
lower-cased. -/
def canonicalizeLitRef (rt : JsRuntime) (v : Option Str) : Str :=
  match v with
  | none => []
  | some s =>
    if s = [] then []
    else if trilhaKey.isPrefixOf (rt.toUpper (trimS s)) then trimS s
    else rt.toLower (trimS (stripZW (rt.nfkc s)))

/-- canonicalizeLitRef applied to a present string. -/
def canonS (rt : JsRuntime) (s : Str) : Str := canonicalizeLitRef rt (some s)

/- Basic lemmas about trim and strip used for the idempotence claim. -/

theorem dropWhile_idem (p : Char → Bool) (l : Str) :
    (l.dropWhile p).dropWhile p = l.dropWhile p := by
  induction l with
  | nil => rfl
  | cons a t ih =>
    by_cases h : p a = true
    · simp [List.dropWhile_cons, h, ih]
    · simp [List.dropWhile_cons, h]

theorem dropWhile_head_false (p : Char → Bool) (a : Char) (t : Str)
    (h : (a :: t).dropWhile p = a :: t) : p a = false := by
  by_cases hp : p a = true
  · exfalso
    rw [List.dropWhile_cons, if_pos hp] at h
    have hle := (List.dropWhile_sublist (l := t) p).length_le
    have hlen := congrArg List.length h
    simp at hlen
    omega
  · simpa using hp

theorem dropTrailing_sublist (p : Char → Bool) (s : Str) :
    (dropTrailing p s).Sublist s := by
  have h1 : (s.reverse.dropWhile p).Sublist s.reverse := List.dropWhile_sublist _
  have h2 := h1.reverse
  simpa [dropTrailing] using h2

theorem trimS_sublist (s : Str) : (trimS s).Sublist s :=
  (dropTrailing_sublist _ _).trans (List.dropWhile_sublist _)

/-- dropTrailing yields a prefix of its input. -/
theorem dropTrailing_isPrefix (p : Char → Bool) (s : Str) :
    (dropTrailing p s) <+: s := by
  have h : (s.reverse.dropWhile p) <:+ s.reverse := List.dropWhile_suffix _
  rcases h with ⟨t, ht⟩
  refine ⟨t.reverse, ?_⟩
  have := congrArg List.reverse ht
  simpa [dropTrailing] using this

theorem dropWhile_eq_self_of_isPrefix (p : Char → Bool) {u w : Str}
    (hu : u.dropWhile p = u) (hw : w <+: u) : w.dropWhile p = w := by
  rcases hw with ⟨t, ht⟩
  cases w with
  | nil => rfl
  | cons a s =>
    have ha : p a = false := by
      have hu2 : u = a :: (s ++ t) := by rw [← ht]; simp
      rw [hu2] at hu
      exact dropWhile_head_false p a (s ++ t) hu
    simp [List.dropWhile_cons, ha]

theorem trimS_idem (s : Str) : trimS (trimS s) = trimS s := by
  unfold trimS
  set u := s.dropWhile isJsWs with hu
  have hufix : u.dropWhile isJsWs = u := by rw [hu]; exact dropWhile_idem _ _
  set w := dropTrailing isJsWs u with hw
  have hwpre : w <+: u := by rw [hw]; exact dropTrailing_isPrefix _ _
  have hwfix : w.dropWhile isJsWs = w := dropWhile_eq_self_of_isPrefix _ hufix hwpre
  rw [hwfix]
  show dropTrailing isJsWs w = w
  unfold dropTrailing
  rw [hw]
  unfold dropTrailing
  rw [List.reverse_reverse, dropWhile_idem]

theorem stripZW_idem (s : Str) : stripZW (stripZW s) = stripZW s := by
  unfold stripZW
  rw [List.filter_filter]
  simp

theorem stripZW_eq_self_iff (s : Str) :
    stripZW s = s ↔ ∀ c ∈ s, isZeroWidth c = false := by
  unfold stripZW
  rw [List.filter_eq_self]
  constructor
  · intro h c hc; have := h c hc; simpa using this
  · intro h c hc; simpa using h c hc

theorem stripZW_sublist_fixed {v s : Str} (hs : stripZW s = s)
    (hv : v.Sublist s) : stripZW v = v := by
  rw [stripZW_eq_self_iff] at hs ⊢
  intro c hc
  exact hs c (hv.mem hc)

/-- C9.  Canonicalization idempotence: for every input string x,
canonicalize(canonicalize(x)) = canonicalize(x), across both the structured
track-tag branch (which preserves the trimmed value verbatim) and the
default branch (NFKC compatibility normalization, zero-width stripping,
trim, lower-case).  The Unicode primitives of the engine are parameters; the
hypotheses are the standard laws they satisfy: upper-casing the empty
string gives the empty string, lower-casing is idempotent, lower-casing a
trimmed (resp. zero-width-free) string leaves it trimmed (resp.
zero-width-free), and the canonical output is NFKC-stable. -/
theorem canonicalizeLitRef_idem (rt : JsRuntime)
    (hU : rt.toUpper [] = [])
    (hL : ∀ s, rt.toLower (rt.toLower s) = rt.toLower s)
    (hT : ∀ s, trimS s = s → trimS (rt.toLower s) = rt.toLower s)
    (hZ : ∀ s, stripZW s = s → stripZW (rt.toLower s) = rt.toLower s)
    (hN : ∀ s, rt.nfkc (rt.toLower (trimS (stripZW (rt.nfkc s)))) =
        rt.toLower (trimS (stripZW (rt.nfkc s))))
    (x : Str) : canonS rt (canonS rt x) = canonS rt x := by
  unfold canonS
  by_cases hx : x = []
  · simp [hx, canonicalizeLitRef]
  by_cases hTri : trilhaKey <+: rt.toUpper (trimS x)
  · have hcx : canonicalizeLitRef rt (some x) = trimS x := by
      simp [canonicalizeLitRef, hx, hTri]
    rw [hcx]
    have htx : trimS x ≠ [] := by
      intro h0
      rw [h0, hU] at hTri
      rw [List.prefix_nil] at hTri
      exact absurd hTri (by decide)
    have hTri2 : trilhaKey <+: rt.toUpper (trimS (trimS x)) := by
      rw [trimS_idem]; exact hTri
    simp [canonicalizeLitRef, htx, hTri2, trimS_idem]
    intro h
    exact absurd hTri h
  · have hcx : canonicalizeLitRef rt (some x) =
        rt.toLower (trimS (stripZW (rt.nfkc x))) := by
      simp [canonicalizeLitRef, hx, hTri]
    rw [hcx]
    set d := rt.toLower (trimS (stripZW (rt.nfkc x))) with hd
    by_cases hdz : d = []
    · simp [hdz, canonicalizeLitRef]
    · have hdta : trimS d = d := by
        rw [hd]; exact hT _ (trimS_idem _)
      by_cases hTri3 : trilhaKey <+: rt.toUpper (trimS d)
      · simp [canonicalizeLitRef, hdz, hTri3, hdta]
        intro h
        rw [hdta] at hTri3
        exact absurd hTri3 h
      · have h1 : rt.nfkc d = d := by rw [hd]; exact hN x
        have h2 : stripZW d = d := by
          rw [hd]
          exact hZ _ (stripZW_sublist_fixed (stripZW_idem _) (trimS_sublist _))
        have h3 : rt.toLower d = d := by rw [hd]; exact hL _
        simp [canonicalizeLitRef, hdz, hTri3, h1, h2, hdta, h3]

/-- Witness for C9: the idempotence theorem applied at a concrete runtime
(on plain ASCII data the Unicode primitives act as the identity, so all the
laws hold definitionally) and a concrete string. -/
theorem canonicalizeLitRef_idem_witness :
    canonS idRuntime (canonS idRuntime ("  Lei 8112 art 41  ".toList)) =
      canonS idRuntime ("  Lei 8112 art 41  ".toList) :=
  canonicalizeLitRef_idem idRuntime rfl (fun _ => rfl) (fun _ h => h)
    (fun _ h => h) (fun _ => rfl) _

/- ## Gold-window checker -/

/-- A date string as seen by checkIsGoldWindow: it is either empty, fails
to parse (NaN timestamp), or parses to a millisecond timestamp. -/
inductive DateInput
  | empty
  | invalid
  | ts (t : Int)
deriving DecidableEq

/-- The 12-hour tolerance window, in milliseconds. -/
def WINDOW_MS : Int := 12 * 60 * 60 * 1000

/-- checkIsGoldWindow from the source: false for an empty string, false
when parsing yields NaN, otherwise true iff the absolute difference between
now and the due timestamp is at most 12 hours. -/
def checkIsGoldWindow (now : Int) (d : DateInput) : Bool :=
  match d with
  | .empty => false
  | .invalid => false
  | .ts due => decide (|now - due| ≤ WINDOW_MS)

/-- C8.  The gold-window check returns true iff the due date parses and
|now − due| ≤ 12 hours; it is false on the empty string and on unparseable
dates, false at 12 hours plus one minute past due, true at 12 hours minus
one minute past due. -/
theorem checkIsGoldWindow_spec :
    (∀ now d, checkIsGoldWindow now d = true ↔
        ∃ t, d = DateInput.ts t ∧ |now - t| ≤ WINDOW_MS) ∧
    (∀ now, checkIsGoldWindow now DateInput.empty = false) ∧
    (∀ now, checkIsGoldWindow now DateInput.invalid = false) ∧
    (∀ t, checkIsGoldWindow (t + (WINDOW_MS + 60000)) (DateInput.ts t) = false) ∧
    (∀ t, checkIsGoldWindow (t + (WINDOW_MS - 60000)) (DateInput.ts t) = true) := by
  refine ⟨?_, fun _ => rfl, fun _ => rfl, ?_, ?_⟩
  · intro now d
    cases d with
    | empty => simp [checkIsGoldWindow]
    | invalid => simp [checkIsGoldWindow]
    | ts t => simp [checkIsGoldWindow]
  · intro t
    show decide (|t + (WINDOW_MS + 60000) - t| ≤ WINDOW_MS) = false
    have h : t + (WINDOW_MS + 60000) - t = WINDOW_MS + 60000 := by ring
    rw [h]
    decide
  · intro t
    show decide (|t + (WINDOW_MS - 60000) - t| ≤ WINDOW_MS) = true
    have h : t + (WINDOW_MS - 60000) - t = WINDOW_MS - 60000 := by ring
    rw [h]
    decide

/- ## SRS memory model -/

/-- The srsV2 block of the configuration. -/
structure SrsV2Config where
  S_default_days : ℝ
  gamma_fail : ℝ
  alpha_good : ℝ
  alpha_easy : ℝ
  alpha_hard : ℝ
  k_rt_bonus : ℝ

/-- The slice of AppSettings read by the memory model: settings.srsV2 and
settings.learning.srs.stabilityCapDays (optional, defaulted to 365 by the
source). -/
structure AppSettings where
  srsV2 : SrsV2Config
  stabilityCapDays : Option ℝ

/-- The SRS-relevant fields of a reviewable item.  lastReviewedAt is the
parsed millisecond timestamp of the stored ISO string, or none when the
field is absent. -/
structure SrsItem where
  stability : Option ℝ := none
  difficulty : Option ℝ := none
  masteryScore : Option ℝ := none
  totalAttempts : Option Nat := none
  lastReviewedAt : Option ℝ := none

/-- JavaScript x || d on an optional number: absent or zero falls back to
the default. -/
noncomputable def jsOr (x : Option ℝ) (d : ℝ) : ℝ :=
  match x with
  | none => d
  | some v => if v = 0 then d else v

def DAY_MS : ℝ := 86400000

/-- calculateRetrievability from the source: 0 when never reviewed,
otherwise exp(-daysElapsed / S) with S = item.stability || 1. -/
noncomputable def calculateRetrievability (now : ℝ) (item : SrsItem) : ℝ :=
  match item.lastReviewedAt with
  | none => 0
  | some last =>
    let daysElapsed := (now - last) / DAY_MS
    let S := jsOr item.stability 1
    Real.exp (-daysElapsed / S)

/-- calculateCurrentDomain from the source: 0 when never attempted,
otherwise (masteryScore || 0) × retrievability.  (The settings argument of
the source is unused by its body and omitted here.) -/
noncomputable def calculateCurrentDomain (now : ℝ) (item : SrsItem) : ℝ :=
  if item.totalAttempts.getD 0 = 0 then 0
  else jsOr item.masteryScore 0 * calculateRetrievability now item

/-- Timing classification of an attempt (source name: timingClass). -/
inductive Timing
  | RUSH
  | SLOW
  | OK
deriving DecidableEq

inductive Grade
  | again
  | hard
  | good
  | easy
deriving DecidableEq

/-- The patch returned by calculateNewSrsState.  The source also returns
nextReviewDate = addDaysToDate(now, stability) and lastReviewedAt = now as
ISO strings, plus the constant targetSec = 30; the two date strings are
locale/calendar renderings of timestamps derived from now and the stability
below and no claim concerns them, so they are not modelled. -/
structure SrsPatch where
  stability : ℝ
  difficulty : ℝ
  masteryScore : ℝ
  timing : Timing
  grade : Option Grade
  targetSec : ℝ
  lastWasCorrect : Bool

/-- calculateNewSrsState from the source (the CORE LOGIC: SRS UPDATE
block), with now the sampled current time in milliseconds. -/
noncomputable def calculateNewSrsState (now : ℝ) (item : SrsItem)
    (wasCorrect : Bool) (rating : Nat) (timeTaken : ℝ)
    (settings : AppSettings) : SrsPatch :=
  let srsV2 := settings.srsV2
  let currentS := jsOr item.stability srsV2.S_default_days
  let currentD := jsOr item.difficulty 0.5
  let currentR := calculateRetrievability now item
  let SD : ℝ × ℝ :=
    if !wasCorrect then
      (max 0.5 (currentS * srsV2.gamma_fail), min 1.0 (currentD + 0.2))
    else
      let newD :=
        if rating = 3 then max 0.1 (currentD - 0.15)
        else if rating = 1 then min 1.0 (currentD + 0.1)
        else currentD
      let alpha :=
        if rating = 3 then srsV2.alpha_easy
        else if rating = 1 then srsV2.alpha_hard
        else srsV2.alpha_good
      let gain := alpha * (1 + (1 - currentR) * 2) * (1 + (1 - currentD))
      let expectedTime : ℝ := 20
      let timeBonus :=
        if timeTaken < expectedTime * 0.5 then 1.0 + srsV2.k_rt_bonus else 1.0
      (currentS * (1 + gain * timeBonus), newD)
  let newS := min SD.1 (jsOr settings.stabilityCapDays 365)
  let newD := SD.2
  let mastery0 : ℝ :=
    if newS ≤ 1 then (if wasCorrect then 15 else 0)
    else
      let m := min 100 (Real.log newS / Real.log 365 * 100)
      if m < 20 ∧ wasCorrect = true then 20 else m
  let mastery1 := mastery0 * (1 - newD * 0.2)
  let mastery2 := max 0 (min 100 mastery1)
  { stability := newS
    difficulty := newD
    masteryScore := mastery2
    timing := if timeTaken < 5 then .RUSH else if timeTaken > 60 then .SLOW else .OK
    grade := [Grade.again, Grade.hard, Grade.good, Grade.easy][rating]?
    targetSec := 30
    lastWasCorrect := wasCorrect }

/- ## Numeric bounds on exp and log used by the scenario claims -/

theorem exp_neg_one_lb : (0.36787944 : ℝ) < Real.exp (-1) := by
  rw [Real.exp_neg]
  have h := Real.exp_one_lt_d9
  have hpos : (0 : ℝ) < Real.exp 1 := Real.exp_pos 1
  have hy : (0 : ℝ) < (Real.exp 1)⁻¹ := inv_pos.mpr hpos
  have key : (2.7182818286 : ℝ) * (Real.exp 1)⁻¹ > 1 := by
    calc (2.7182818286 : ℝ) * (Real.exp 1)⁻¹
        > Real.exp 1 * (Real.exp 1)⁻¹ := by exact mul_lt_mul_of_pos_right h hy
      _ = 1 := mul_inv_cancel₀ (ne_of_gt hpos)
  linarith

theorem exp_neg_one_ub : Real.exp (-1) < 0.36787945 := by
  rw [Real.exp_neg]
  have h := Real.exp_one_gt_d9
  have hpos : (0 : ℝ) < Real.exp 1 := Real.exp_pos 1
  have hy : (0 : ℝ) < (Real.exp 1)⁻¹ := inv_pos.mpr hpos
  have key : (2.7182818283 : ℝ) * (Real.exp 1)⁻¹ < 1 := by
    calc (2.7182818283 : ℝ) * (Real.exp 1)⁻¹
        < Real.exp 1 * (Real.exp 1)⁻¹ := by exact mul_lt_mul_of_pos_right h hy
      _ = 1 := mul_inv_cancel₀ (ne_of_gt hpos)
  linarith

theorem exp_three_eq : Real.exp 3 = Real.exp 1 ^ 3 := by
  rw [show (3 : ℝ) = 1 + 1 + 1 by norm_num, Real.exp_add, Real.exp_add]
  ring

theorem exp_three_lb : (20.0855369 : ℝ) < Real.exp 3 := by
  rw [exp_three_eq]
  have h : (2.7182818283 : ℝ) ^ 3 < Real.exp 1 ^ 3 := by
    gcongr
    linarith [Real.exp_one_gt_d9]
  nlinarith

theorem exp_three_ub : Real.exp 3 < 20.0855370 := by
  rw [exp_three_eq]
  have h : Real.exp 1 ^ 3 < (2.7182818286 : ℝ) ^ 3 := by
    gcongr
    linarith [Real.exp_one_lt_d9]
  nlinarith

theorem exp_six_eq : Real.exp 6 = Real.exp 1 ^ 6 := by
  rw [show (6 : ℝ) = 1 + 1 + 1 + 1 + 1 + 1 by norm_num,
    Real.exp_add, Real.exp_add, Real.exp_add, Real.exp_add, Real.exp_add]
  ring

theorem exp_six_lb : (403.428793 : ℝ) < Real.exp 6 := by
  rw [exp_six_eq]
  have h : (2.7182818283 : ℝ) ^ 6 < Real.exp 1 ^ 6 := by
    gcongr
    linarith [Real.exp_one_gt_d9]
  nlinarith

theorem exp_six_ub : Real.exp 6 < 403.428794 := by
  rw [exp_six_eq]
  have h : Real.exp 1 ^ 6 < (2.7182818286 : ℝ) ^ 6 := by
    gcongr
    linarith [Real.exp_one_lt_d9]
  nlinarith

/-- Two-sided bound on log x around a reference exponent k:
k + 1 - exp k / x ≤ log x ≤ k - 1 + x / exp k. -/
theorem log_bounds_at (k x : ℝ) (hx : 0 < x) :
    k + 1 - Real.exp k / x ≤ Real.log x ∧
      Real.log x ≤ k - 1 + x / Real.exp k := by
  have hek : (0 : ℝ) < Real.exp k := Real.exp_pos k
  have ht : 0 < x / Real.exp k := div_pos hx hek
  have hsplit : Real.log (x / Real.exp k) = Real.log x - k := by
    rw [Real.log_div (ne_of_gt hx) (ne_of_gt hek), Real.log_exp]
  have hub : Real.log (x / Real.exp k) ≤ x / Real.exp k - 1 :=
    Real.log_le_sub_one_of_pos ht
  have hlb : 1 - (x / Real.exp k)⁻¹ ≤ Real.log (x / Real.exp k) := by
    have h2 : Real.log (x / Real.exp k)⁻¹ ≤ (x / Real.exp k)⁻¹ - 1 :=
      Real.log_le_sub_one_of_pos (inv_pos.mpr ht)
    rw [Real.log_inv] at h2
    linarith
  rw [inv_div] at hlb
  constructor
  · rw [hsplit] at hlb; linarith
  · rw [hsplit] at hub; linarith

theorem newS_scn_bounds :
    (20.18908495 : ℝ) < 23.5 - 9 * Real.exp (-1) ∧
      (23.5 : ℝ) - 9 * Real.exp (-1) < 20.18908504 := by
  have h1 := exp_neg_one_lb
  have h2 := exp_neg_one_ub
  constructor <;> linarith

theorem log_newS_scn_bounds :
    (3.005128 : ℝ) < Real.log (23.5 - 9 * Real.exp (-1)) ∧
      Real.log (23.5 - 9 * Real.exp (-1)) < 3.005156 := by
  obtain ⟨hxl, hxu⟩ := newS_scn_bounds
  have hx : (0 : ℝ) < 23.5 - 9 * Real.exp (-1) := by linarith
  obtain ⟨hlb, hub⟩ := log_bounds_at 3 _ hx
  have he3l := exp_three_lb
  have he3u := exp_three_ub
  have hek : (0 : ℝ) < Real.exp 3 := Real.exp_pos 3
  constructor
  · have hdiv : Real.exp 3 / (23.5 - 9 * Real.exp (-1)) < 0.994872 := by
      rw [div_lt_iff₀ hx]
      nlinarith
    linarith
  · have hdiv : (23.5 - 9 * Real.exp (-1)) / Real.exp 3 < 1.005156 := by
      rw [div_lt_iff₀ hek]
      nlinarith
    linarith

theorem log_365_bounds :
    (5.894715 : ℝ) < Real.log 365 ∧ Real.log 365 < 5.904745 := by
  have hx : (0 : ℝ) < 365 := by norm_num
  obtain ⟨hlb, hub⟩ := log_bounds_at 6 365 hx
  have he6l := exp_six_lb
  have he6u := exp_six_ub
  have hek : (0 : ℝ) < Real.exp 6 := Real.exp_pos 6
  constructor
  · have hdiv : Real.exp 6 / (365 : ℝ) < 1.105285 := by
      rw [div_lt_iff₀ hx]
      nlinarith
    linarith
  · have hdiv : (365 : ℝ) / Real.exp 6 < 0.904745 := by
      rw [div_lt_iff₀ hek]
      nlinarith
    linarith

/- ## C10: retrievability is not clamped -/

/-- Concrete item whose lastReviewedAt lies one day in the future of the
query time 0 (clock skew / imported data). -/
noncomputable def itemFutureReview : SrsItem :=
  { stability := some 1, masteryScore := some 50, totalAttempts := some 1,
    lastReviewedAt := some DAY_MS }

/-- C10.  Retrievability is not clamped to [0,1]: for an item whose
lastReviewedAt is strictly in the future, calculateRetrievability exceeds 1
and consequently calculateCurrentDomain exceeds the stored masteryScore. -/
theorem retrievability_not_clamped :
    itemFutureReview.masteryScore = some 50 ∧
    itemFutureReview.totalAttempts = some 1 ∧
    1 < calculateRetrievability 0 itemFutureReview ∧
    50 < calculateCurrentDomain 0 itemFutureReview := by
  have hexp : (1 : ℝ) < Real.exp 1 := by
    have := Real.exp_one_gt_d9
    linarith
  have hR : calculateRetrievability 0 itemFutureReview = Real.exp 1 := by
    unfold calculateRetrievability itemFutureReview jsOr
    norm_num [DAY_MS]
  have hD : calculateCurrentDomain 0 itemFutureReview =
      50 * calculateRetrievability 0 itemFutureReview := by
    unfold calculateCurrentDomain itemFutureReview jsOr
    norm_num
  refine ⟨rfl, rfl, ?_, ?_⟩
  · rw [hR]; exact hexp
  · rw [hD, hR]; nlinarith

/- ## C1 scenario: stability 10, difficulty 0.5, reviewed 10 days ago,
rated good (2) at 25 s, alpha_good 0.3, gamma_fail 0.5, k_rt_bonus 0.2,
cap 365 -/

theorem jsOr_some_ne (v d : ℝ) (h : v ≠ 0) : jsOr (some v) d = v := by
  simp [jsOr, h]

noncomputable def cfgScn : AppSettings :=
  { srsV2 :=
      { S_default_days := 5, gamma_fail := 0.5, alpha_good := 0.3,
        alpha_easy := 0.5, alpha_hard := 0.15, k_rt_bonus := 0.2 },
    stabilityCapDays := some 365 }

noncomputable def itemScn : SrsItem :=
  { stability := some 10, difficulty := some 0.5, masteryScore := some 40,
    totalAttempts := some 3, lastReviewedAt := some 0 }

noncomputable def patchScn : SrsPatch :=
  calculateNewSrsState (10 * DAY_MS) itemScn true 2 25 cfgScn

theorem retr_scn :
    calculateRetrievability (10 * DAY_MS) itemScn = Real.exp (-1) := by
  have h0 : calculateRetrievability (10 * DAY_MS) itemScn =
      Real.exp (-((10 * DAY_MS - 0) / DAY_MS) / jsOr (some 10) 1) := rfl
  rw [h0, jsOr_some_ne _ _ (by norm_num)]
  norm_num [DAY_MS]

theorem patchScn_eval :
    patchScn.stability = 23.5 - 9 * Real.exp (-1) ∧
    patchScn.masteryScore =
      Real.log (23.5 - 9 * Real.exp (-1)) / Real.log 365 * 100 * 0.9 := by
  have hE1 := exp_neg_one_lb
  have hE2 := exp_neg_one_ub
  have hlx := log_newS_scn_bounds
  have hl365 := log_365_bounds
  have h1 : patchScn.stability =
      min (jsOr (some 10) 5 *
        (1 + 0.3 * (1 + (1 - calculateRetrievability (10 * DAY_MS) itemScn) * 2) *
          (1 + (1 - jsOr (some 0.5) 0.5)) *
          (if (25 : ℝ) < 20 * 0.5 then 1.0 + 0.2 else 1.0)))
        (jsOr (some 365) 365) := rfl
  rw [retr_scn, jsOr_some_ne _ _ (by norm_num), jsOr_some_ne _ _ (by norm_num),
    jsOr_some_ne _ _ (by norm_num),
    if_neg (by norm_num : ¬((25 : ℝ) < 20 * 0.5))] at h1
  have hval : (10 : ℝ) * (1 + 0.3 * (1 + (1 - Real.exp (-1)) * 2) *
      (1 + (1 - 0.5)) * 1.0) = 23.5 - 9 * Real.exp (-1) := by ring
  rw [hval, min_eq_left (by linarith : (23.5 : ℝ) - 9 * Real.exp (-1) ≤ 365)] at h1
  have h2 : patchScn.masteryScore =
      max 0 (min 100
        ((if patchScn.stability ≤ 1 then (15 : ℝ)
          else if min 100 (Real.log patchScn.stability / Real.log 365 * 100) < 20 ∧
              (true = true)
            then 20
            else min 100 (Real.log patchScn.stability / Real.log 365 * 100)) *
          (1 - jsOr (some 0.5) 0.5 * 0.2))) := rfl
  rw [h1] at h2
  rw [jsOr_some_ne _ _ (by norm_num)] at h2
  rw [if_neg (by linarith : ¬((23.5 : ℝ) - 9 * Real.exp (-1) ≤ 1))] at h2
  have hlog365pos : (0 : ℝ) < Real.log 365 := by linarith [hl365.1]
  have hz1 : Real.log (23.5 - 9 * Real.exp (-1)) / Real.log 365 < 0.51 := by
    rw [div_lt_iff₀ hlog365pos]
    nlinarith [hlx.2, hl365.1]
  have hz2 : (0.45 : ℝ) < Real.log (23.5 - 9 * Real.exp (-1)) / Real.log 365 := by
    rw [lt_div_iff₀ hlog365pos]
    nlinarith [hlx.1, hl365.2]
  rw [min_eq_right (by nlinarith :
      Real.log (23.5 - 9 * Real.exp (-1)) / Real.log 365 * 100 ≤ 100)] at h2
  rw [if_neg (by
      intro hcon
      nlinarith [hcon.1])] at h2
  rw [min_eq_right (by nlinarith :
      Real.log (23.5 - 9 * Real.exp (-1)) / Real.log 365 * 100 * (1 - 0.5 * 0.2) ≤ 100)] at h2
  rw [max_eq_right (by nlinarith :
      (0 : ℝ) ≤ Real.log (23.5 - 9 * Real.exp (-1)) / Real.log 365 * 100 * (1 - 0.5 * 0.2))] at h2
  refine ⟨h1, ?_⟩
  rw [h2]
  ring

/-- Numeric bounds on the scenario mastery score, shared by the C1 theorem
and the C1 counterexample. -/
theorem patchScn_mastery_bounds :
    45.8 < patchScn.masteryScore ∧ patchScn.masteryScore < 45.9 := by
  obtain ⟨h1, h2⟩ := patchScn_eval
  have hlx := log_newS_scn_bounds
  have hl365 := log_365_bounds
  have hpos : (0 : ℝ) < Real.log 365 := by linarith [hl365.1]
  have hform : Real.log (23.5 - 9 * Real.exp (-1)) / Real.log 365 * 100 * 0.9 =
      Real.log (23.5 - 9 * Real.exp (-1)) * 90 / Real.log 365 := by ring
  rw [h2, hform]
  constructor
  · rw [lt_div_iff₀ hpos]
    nlinarith [hlx.1, hl365.2]
  · rw [div_lt_iff₀ hpos]
    nlinarith [hlx.2, hl365.1]

/-- C1 (amended).  On the scenario item (stability 10, difficulty 0.5,
reviewed exactly 10 days ago, graded good with rating 2 at 25 s, with
alpha_good 0.3, gamma_fail 0.5, k_rt_bonus 0.2, cap 365) the patch has no
speed bonus (25 ≥ 10 s), new stability exactly
10 × (1 + 0.3 × (1 + (1 − e⁻¹) × 2) × (1 + 0.5)) ≈ 20.19 days, and
masteryScore exactly ln(newStability)/ln(365) × 100 scaled by
(1 − 0.5 × 0.2) = 0.9, which lies strictly between 45.8 and 45.9
(≈ 45.84; the claimed ≈ 46.1 and intermediate ≈ 51.2 are slightly off). -/
theorem c1_scenario_good_update :
    patchScn.stability =
      10 * (1 + 0.3 * (1 + (1 - Real.exp (-1)) * 2) * (1 + 0.5)) ∧
    20.18 < patchScn.stability ∧ patchScn.stability < 20.20 ∧
    patchScn.masteryScore =
      Real.log patchScn.stability / Real.log 365 * 100 * 0.9 ∧
    45.8 < patchScn.masteryScore ∧ patchScn.masteryScore < 45.9 := by
  obtain ⟨h1, h2⟩ := patchScn_eval
  obtain ⟨hm1, hm2⟩ := patchScn_mastery_bounds
  obtain ⟨hb1, hb2⟩ := newS_scn_bounds
  refine ⟨?_, ?_, ?_, ?_, hm1, hm2⟩
  · rw [h1]; ring
  · rw [h1]; linarith
  · rw [h1]; linarith
  · rw [h2, h1]

/-- Counterexample for C1 as stated: at the claimed scenario the returned
masteryScore is strictly below 45.9, hence not approximately 46.1 (and the
unscaled logarithmic value is below 51, not ≈ 51.2). -/
theorem c1_mastery_counterexample :
    patchScn.masteryScore < 45.9 ∧ (45.9 : ℝ) + 0.2 = 46.1 :=
  ⟨patchScn_mastery_bounds.2, by norm_num⟩

/- ## C2: clamp invariants -/

/-- A valid configuration per the spec (section 6): positive default
stability, failure decay strictly between 0 and 1, positive growth factors,
nonnegative speed bonus, positive stability cap when present. -/
def ValidConfig (s : AppSettings) : Prop :=
  0 < s.srsV2.S_default_days ∧ 0 < s.srsV2.gamma_fail ∧ s.srsV2.gamma_fail < 1 ∧
  0 < s.srsV2.alpha_good ∧ 0 < s.srsV2.alpha_easy ∧ 0 < s.srsV2.alpha_hard ∧
  0 ≤ s.srsV2.k_rt_bonus ∧ ∀ c ∈ s.stabilityCapDays, 0 < c

theorem jsOr_pos (x : Option ℝ) (d : ℝ) (hd : 0 < d)
    (hx : ∀ v ∈ x, 0 < v) : 0 < jsOr x d := by
  cases x with
  | none => exact hd
  | some v =>
    show (0 : ℝ) < if v = 0 then d else v
    by_cases hv : v = 0
    · rw [if_pos hv]; exact hd
    · rw [if_neg hv]; exact hx v rfl

theorem jsOr_mem_bounds (x : Option ℝ) (d lo hi : ℝ) (hlo : 0 < lo)
    (hdlo : lo ≤ d) (hdhi : d ≤ hi)
    (hx : ∀ v ∈ x, lo ≤ v ∧ v ≤ hi) :
    lo ≤ jsOr x d ∧ jsOr x d ≤ hi := by
  cases x with
  | none => exact ⟨hdlo, hdhi⟩
  | some v =>
    have hv := hx v rfl
    have hvne : v ≠ 0 := by intro h0; rw [h0] at hv; linarith [hv.1]
    rw [jsOr_some_ne _ _ hvne]
    exact hv

theorem retrievability_nonneg (now : ℝ) (item : SrsItem) :
    0 ≤ calculateRetrievability now item := by
  unfold calculateRetrievability
  cases item.lastReviewedAt with
  | none => exact le_refl 0
  | some t => exact le_of_lt (Real.exp_pos _)

theorem retrievability_le_one (now : ℝ) (item : SrsItem)
    (hl : ∀ t ∈ item.lastReviewedAt, t ≤ now)
    (hs : ∀ v ∈ item.stability, 0 < v) :
    calculateRetrievability now item ≤ 1 := by
  unfold calculateRetrievability
  cases hlast : item.lastReviewedAt with
  | none => norm_num
  | some t =>
    have ht : t ≤ now := hl t (by rw [hlast]; rfl)
    have hS : (0 : ℝ) < jsOr item.stability 1 := jsOr_pos _ _ (by norm_num) hs
    have hday : (0 : ℝ) < DAY_MS := by norm_num [DAY_MS]
    have hnum : 0 ≤ (now - t) / DAY_MS := div_nonneg (by linarith) (le_of_lt hday)
    have hz : -((now - t) / DAY_MS) / jsOr item.stability 1 ≤ 0 :=
      div_nonpos_of_nonpos_of_nonneg (by linarith) (le_of_lt hS)
    calc Real.exp (-((now - t) / DAY_MS) / jsOr item.stability 1)
        ≤ Real.exp 0 := Real.exp_le_exp.mpr hz
      _ = 1 := Real.exp_zero

theorem clamp_0_100 (x : ℝ) :
    0 ≤ max 0 (min 100 x) ∧ max 0 (min 100 x) ≤ 100 := by
  constructor
  · exact le_max_left 0 _
  · apply max_le (by norm_num)
    exact le_trans (min_le_left _ _) (by norm_num)

/-- C2 (amended).  For every item whose difficulty is in [0.1, 1] (or
absent), whose stability is positive (or absent), and whose lastReviewedAt
does not lie in the future of the call time, and every valid configuration,
the patch satisfies difficulty ∈ [0.1, 1], masteryScore ∈ [0, 100] and
0 < stability ≤ effective stabilityCapDays.  (The added lastReviewedAt
hypothesis is forced: a future lastReviewedAt makes retrievability exceed 1
and can drive the computed stability negative, see the counterexample.) -/
theorem srs_update_clamp_invariants
    (now : ℝ) (item : SrsItem) (wasCorrect : Bool) (rating : ℕ)
    (timeTaken : ℝ) (cfg : AppSettings) (hcfg : ValidConfig cfg)
    (hd : ∀ d ∈ item.difficulty, 0.1 ≤ d ∧ d ≤ 1)
    (hs : ∀ v ∈ item.stability, 0 < v)
    (hl : ∀ t ∈ item.lastReviewedAt, t ≤ now) :
    (0.1 ≤ (calculateNewSrsState now item wasCorrect rating timeTaken cfg).difficulty ∧
      (calculateNewSrsState now item wasCorrect rating timeTaken cfg).difficulty ≤ 1) ∧
    (0 ≤ (calculateNewSrsState now item wasCorrect rating timeTaken cfg).masteryScore ∧
      (calculateNewSrsState now item wasCorrect rating timeTaken cfg).masteryScore ≤ 100) ∧
    (0 < (calculateNewSrsState now item wasCorrect rating timeTaken cfg).stability ∧
      (calculateNewSrsState now item wasCorrect rating timeTaken cfg).stability ≤
        jsOr cfg.stabilityCapDays 365) := by
  obtain ⟨hSdef, hgf0, hgf1, hag, hae, hah, hk, hcap⟩ := hcfg
  have hcappos : 0 < jsOr cfg.stabilityCapDays 365 :=
    jsOr_pos _ _ (by norm_num) hcap
  have hDb := jsOr_mem_bounds item.difficulty 0.5 0.1 1 (by norm_num)
    (by norm_num) (by norm_num) hd
  have hSpos : 0 < jsOr item.stability cfg.srsV2.S_default_days :=
    jsOr_pos _ _ hSdef hs
  have hR0 := retrievability_nonneg now item
  have hR1 := retrievability_le_one now item hl hs
  have hmast : ∃ y, (calculateNewSrsState now item wasCorrect rating
      timeTaken cfg).masteryScore = max 0 (min 100 y) := ⟨_, rfl⟩
  refine ⟨?_, ?_, ?_⟩
  · -- difficulty
    cases wasCorrect with
    | false =>
      have hdiff : (calculateNewSrsState now item false rating timeTaken
          cfg).difficulty = min 1.0 (jsOr item.difficulty 0.5 + 0.2) := rfl
      rw [hdiff]
      constructor
      · apply le_min (by norm_num)
        linarith [hDb.1]
      · have := min_le_left (1.0 : ℝ) (jsOr item.difficulty 0.5 + 0.2)
        linarith
    | true =>
      have hdiff : (calculateNewSrsState now item true rating timeTaken
          cfg).difficulty =
          (if rating = 3 then max 0.1 (jsOr item.difficulty 0.5 - 0.15)
           else if rating = 1 then min 1.0 (jsOr item.difficulty 0.5 + 0.1)
           else jsOr item.difficulty 0.5) := rfl
      rw [hdiff]
      by_cases h3 : rating = 3
      · rw [if_pos h3]
        constructor
        · exact le_max_left _ _
        · apply max_le (by norm_num)
          linarith [hDb.2]
      · rw [if_neg h3]
        by_cases hr1 : rating = 1
        · rw [if_pos hr1]
          constructor
          · apply le_min (by norm_num)
            linarith [hDb.1]
          · have := min_le_left (1.0 : ℝ) (jsOr item.difficulty 0.5 + 0.1)
            linarith
        · rw [if_neg hr1]
          exact hDb
  · -- masteryScore
    obtain ⟨y, hy⟩ := hmast
    rw [hy]
    exact clamp_0_100 y
  · -- stability
    cases wasCorrect with
    | false =>
      have hstab : (calculateNewSrsState now item false rating timeTaken
          cfg).stability =
          min (max 0.5 (jsOr item.stability cfg.srsV2.S_default_days *
            cfg.srsV2.gamma_fail)) (jsOr cfg.stabilityCapDays 365) := rfl
      rw [hstab]
      constructor
      · apply lt_min _ hcappos
        have := le_max_left (0.5 : ℝ)
          (jsOr item.stability cfg.srsV2.S_default_days * cfg.srsV2.gamma_fail)
        linarith
      · exact min_le_right _ _
    | true =>
      have hstab : (calculateNewSrsState now item true rating timeTaken
          cfg).stability =
          min (jsOr item.stability cfg.srsV2.S_default_days *
            (1 + (if rating = 3 then cfg.srsV2.alpha_easy
                  else if rating = 1 then cfg.srsV2.alpha_hard
                  else cfg.srsV2.alpha_good) *
              (1 + (1 - calculateRetrievability now item) * 2) *
              (1 + (1 - jsOr item.difficulty 0.5)) *
              (if timeTaken < 20 * 0.5 then 1.0 + cfg.srsV2.k_rt_bonus
               else 1.0))) (jsOr cfg.stabilityCapDays 365) := rfl
      rw [hstab]
      have halpha : 0 < (if rating = 3 then cfg.srsV2.alpha_easy
          else if rating = 1 then cfg.srsV2.alpha_hard
          else cfg.srsV2.alpha_good) := by
        split_ifs <;> assumption
      have hf1 : (1 : ℝ) ≤ 1 + (1 - calculateRetrievability now item) * 2 := by
        linarith
      have hf2 : (1 : ℝ) ≤ 1 + (1 - jsOr item.difficulty 0.5) := by
        linarith [hDb.2]
      have htb : (1 : ℝ) ≤ (if timeTaken < 20 * 0.5 then
          1.0 + cfg.srsV2.k_rt_bonus else 1.0) := by
        split_ifs
        · linarith
        · norm_num
      have hgain : 0 ≤ (if rating = 3 then cfg.srsV2.alpha_easy
          else if rating = 1 then cfg.srsV2.alpha_hard
          else cfg.srsV2.alpha_good) *
          (1 + (1 - calculateRetrievability now item) * 2) *
          (1 + (1 - jsOr item.difficulty 0.5)) *
          (if timeTaken < 20 * 0.5 then 1.0 + cfg.srsV2.k_rt_bonus
           else 1.0) := by
        apply mul_nonneg
        apply mul_nonneg
        apply mul_nonneg
        · linarith
        · linarith
        · linarith
        · linarith
      constructor
      · apply lt_min _ hcappos
        apply mul_pos hSpos
        linarith
      · exact min_le_right _ _

def itemBlank : SrsItem := {}

/-- Witness for C2: the amended invariant theorem applied to a blank item
and the concrete valid scenario configuration. -/
theorem srs_update_clamp_invariants_witness :
    ValidConfig cfgScn ∧
    ((0.1 ≤ (calculateNewSrsState 0 itemBlank true 2 25 cfgScn).difficulty ∧
      (calculateNewSrsState 0 itemBlank true 2 25 cfgScn).difficulty ≤ 1) ∧
    (0 ≤ (calculateNewSrsState 0 itemBlank true 2 25 cfgScn).masteryScore ∧
      (calculateNewSrsState 0 itemBlank true 2 25 cfgScn).masteryScore ≤ 100) ∧
    (0 < (calculateNewSrsState 0 itemBlank true 2 25 cfgScn).stability ∧
      (calculateNewSrsState 0 itemBlank true 2 25 cfgScn).stability ≤
        jsOr cfgScn.stabilityCapDays 365)) := by
  have hv : ValidConfig cfgScn := by
    refine ⟨?_, ?_, ?_, ?_, ?_, ?_, ?_, ?_⟩
    · norm_num [cfgScn]
    · norm_num [cfgScn]
    · norm_num [cfgScn]
    · norm_num [cfgScn]
    · norm_num [cfgScn]
    · norm_num [cfgScn]
    · norm_num [cfgScn]
    · intro c hc
      have h365 : cfgScn.stabilityCapDays = some 365 := rfl
      rw [h365] at hc
      simp at hc
      rw [← hc]; norm_num
  refine ⟨hv, srs_update_clamp_invariants 0 itemBlank true 2 25 cfgScn hv
    ?_ ?_ ?_⟩
  · intro d hdm; exact absurd hdm (by simp [itemBlank])
  · intro v hvm; exact absurd hvm (by simp [itemBlank])
  · intro t htm; exact absurd htm (by simp [itemBlank])

/-- Item whose lastReviewedAt lies 30 days in the future of the call time
(clock skew / imported data); difficulty and stability satisfy the
data-model invariants. -/
noncomputable def itemFutureBad : SrsItem :=
  { stability := some 10, difficulty := some 0.5, masteryScore := some 40,
    totalAttempts := some 3, lastReviewedAt := some (30 * DAY_MS) }

/-- Counterexample for C2 as stated: with valid configuration and an item
satisfying the difficulty/stability invariants but reviewed in the future,
the returned stability is negative, violating 0 < stability. -/
theorem c2_stability_counterexample :
    ValidConfig cfgScn ∧
    (∀ d ∈ itemFutureBad.difficulty, 0.1 ≤ d ∧ d ≤ 1) ∧
    (∀ v ∈ itemFutureBad.stability, 0 < v) ∧
    (calculateNewSrsState 0 itemFutureBad true 2 25 cfgScn).stability < 0 := by
  refine ⟨?_, ?_, ?_, ?_⟩
  · refine ⟨?_, ?_, ?_, ?_, ?_, ?_, ?_, ?_⟩
    · norm_num [cfgScn]
    · norm_num [cfgScn]
    · norm_num [cfgScn]
    · norm_num [cfgScn]
    · norm_num [cfgScn]
    · norm_num [cfgScn]
    · norm_num [cfgScn]
    · intro c hc
      have h365 : cfgScn.stabilityCapDays = some 365 := rfl
      rw [h365] at hc
      simp at hc
      rw [← hc]; norm_num
  · intro d hdm
    simp only [itemFutureBad, Option.mem_def, Option.some.injEq] at hdm
    rw [← hdm]; norm_num
  · intro v hvm
    simp only [itemFutureBad, Option.mem_def, Option.some.injEq] at hvm
    rw [← hvm]; norm_num
  · have hR : calculateRetrievability 0 itemFutureBad = Real.exp 3 := by
      have h0 : calculateRetrievability 0 itemFutureBad =
          Real.exp (-(((0 : ℝ) - 30 * DAY_MS) / DAY_MS) / jsOr (some 10) 1) := rfl
      rw [h0, jsOr_some_ne _ _ (by norm_num)]
      norm_num [DAY_MS]
    have h1 : (calculateNewSrsState 0 itemFutureBad true 2 25 cfgScn).stability =
        min (jsOr (some 10) 5 *
          (1 + 0.3 * (1 + (1 - calculateRetrievability 0 itemFutureBad) * 2) *
            (1 + (1 - jsOr (some 0.5) 0.5)) *
            (if (25 : ℝ) < 20 * 0.5 then 1.0 + 0.2 else 1.0)))
          (jsOr (some 365) 365) := rfl
    rw [h1, hR, jsOr_some_ne _ _ (by norm_num), jsOr_some_ne _ _ (by norm_num),
      jsOr_some_ne _ _ (by norm_num),
      if_neg (by norm_num : ¬((25 : ℝ) < 20 * 0.5))]
    have he3 := exp_three_lb
    have hneg : (10 : ℝ) * (1 + 0.3 * (1 + (1 - Real.exp 3) * 2) *
        (1 + (1 - 0.5)) * 1.0) < 0 := by nlinarith
    exact lt_of_le_of_lt (min_le_left _ _) hneg

/- ## C3: failure shortens the interval -/

/-- C3 (amended).  Failure never lengthens the interval provided the current
stability of the item is at least the 0.5-day failure floor (and gamma_fail ≤ 1
as the spec requires): the patched stability is at most the current one.
The floor makes the claim false below 0.5 days (see the counterexample). -/
theorem fail_shortens_interval (now : ℝ) (item : SrsItem) (rating : ℕ)
    (timeTaken : ℝ) (cfg : AppSettings) (s : ℝ)
    (hstab : item.stability = some s) (h05 : 0.5 ≤ s)
    (hg1 : cfg.srsV2.gamma_fail ≤ 1) :
    (calculateNewSrsState now item false rating timeTaken cfg).stability ≤ s := by
  have h1 : (calculateNewSrsState now item false rating timeTaken cfg).stability =
      min (max 0.5 (jsOr item.stability cfg.srsV2.S_default_days *
        cfg.srsV2.gamma_fail)) (jsOr cfg.stabilityCapDays 365) := rfl
  rw [h1, hstab, jsOr_some_ne _ _ (ne_of_gt (by linarith : (0 : ℝ) < s))]
  have hmul : s * cfg.srsV2.gamma_fail ≤ s := by nlinarith
  calc min (max 0.5 (s * cfg.srsV2.gamma_fail)) (jsOr cfg.stabilityCapDays 365)
      ≤ max 0.5 (s * cfg.srsV2.gamma_fail) := min_le_left _ _
    _ ≤ s := max_le h05 hmul

/-- Witness for C3: the amended theorem at the scenario item and config. -/
theorem fail_shortens_interval_witness :
    itemScn.stability = some 10 ∧ (0.5 : ℝ) ≤ 10 ∧
    cfgScn.srsV2.gamma_fail ≤ 1 ∧
    (calculateNewSrsState 0 itemScn false 2 25 cfgScn).stability ≤ 10 :=
  ⟨rfl, by norm_num, by norm_num [cfgScn],
    fail_shortens_interval 0 itemScn 2 25 cfgScn 10 rfl (by norm_num)
      (by norm_num [cfgScn])⟩

/-- Item with a valid but small stability of 0.3 days. -/
noncomputable def itemLowStab : SrsItem :=
  { stability := some 0.3, difficulty := some 0.5, totalAttempts := some 2,
    lastReviewedAt := some 0 }

/-- Counterexample for C3 as stated: on an item with stability 0.3 the
failure update returns the 0.5-day floor, which is strictly larger than
the current stability of the item. -/
theorem c3_floor_counterexample :
    itemLowStab.stability = some 0.3 ∧ cfgScn.srsV2.gamma_fail < 1 ∧
    (0.3 : ℝ) <
      (calculateNewSrsState 0 itemLowStab false 2 25 cfgScn).stability := by
  refine ⟨rfl, by norm_num [cfgScn], ?_⟩
  have h1 : (calculateNewSrsState 0 itemLowStab false 2 25 cfgScn).stability =
      min (max 0.5 (jsOr (some 0.3) 5 * 0.5)) (jsOr (some 365) 365) := rfl
  rw [h1, jsOr_some_ne _ _ (by norm_num), jsOr_some_ne _ _ (by norm_num)]
  have hmax : max (0.5 : ℝ) (0.3 * 0.5) = 0.5 := by
    rw [max_eq_left]; norm_num
  rw [hmax, min_eq_left (by norm_num)]
  norm_num

/- ## Aggregation engine: item shapes -/

/-- The fields of a Question read by the aggregation, linking and SRS
status code.  questionText is always present on questions (so the dynamic
check (questionText in item) holds for them); isGapType models both
presence and value of the optional flag; nextReviewDate is the parsed
millisecond timestamp of the stored ISO string, none when absent or
unparseable (NaN). -/
structure Question where
  id : Option Str := none
  questionText : Str := []
  isGapType : Option Bool := none
  lawRef : Option Str := none
  litRef : Option Str := none
  LIT_REF : Option Str := none
  tags : Option (List Str) := none
  totalAttempts : Option Nat := none
  nextReviewDate : Option Int := none
  difficulty : Option ℝ := none
  stability : Option ℝ := none
  masteryScore : Option ℝ := none
  lastReviewedAt : Option ℝ := none

/-- The fields of a Flashcard read by the same code.  Flashcards carry no
questionText and no isGapType property, so the corresponding dynamic
field-presence checks are false for them. -/
structure Flashcard where
  id : Option Str := none
  litRef : Option Str := none
  lawRef : Option Str := none
  LIT_REF : Option Str := none
  tags : Option (List Str) := none
  totalAttempts : Option Nat := none
  nextReviewDate : Option Int := none
  difficulty : Option ℝ := none
  stability : Option ℝ := none
  masteryScore : Option ℝ := none
  lastReviewedAt : Option ℝ := none

/-- An element of the mixed items array built by the aggregation. -/
inductive AggItem
  | q (q : Question)
  | fc (f : Flashcard)

def AggItem.litRefF : AggItem → Option Str
  | .q qq => qq.litRef
  | .fc ff => ff.litRef

def AggItem.lawRefF : AggItem → Option Str
  | .q qq => qq.lawRef
  | .fc ff => ff.lawRef

def AggItem.LIT_REFF : AggItem → Option Str
  | .q qq => qq.LIT_REF
  | .fc ff => ff.LIT_REF

def AggItem.tagsF : AggItem → Option (List Str)
  | .q qq => qq.tags
  | .fc ff => ff.tags

def AggItem.idF : AggItem → Option Str
  | .q qq => qq.id
  | .fc ff => ff.id

/-- item.totalAttempts || 0 -/
def itemAttempts : AggItem → Nat
  | .q q => q.totalAttempts.getD 0
  | .fc f => f.totalAttempts.getD 0

/-- The parse result of item.nextReviewDate (none: absent or NaN). -/
def itemNext : AggItem → Option Int
  | .q q => q.nextReviewDate
  | .fc f => f.nextReviewDate

def AggItem.toQ : AggItem → Option Question
  | .q qq => some qq
  | .fc _ => none

def AggItem.toFc : AggItem → Option Flashcard
  | .q _ => none
  | .fc ff => some ff

/-- View of an item as an SrsItem for the domain computation. -/
def AggItem.toSrs : AggItem → SrsItem
  | .q qq =>
    { stability := qq.stability, difficulty := qq.difficulty,
      masteryScore := qq.masteryScore, totalAttempts := qq.totalAttempts,
      lastReviewedAt := qq.lastReviewedAt }
  | .fc ff =>
    { stability := ff.stability, difficulty := ff.difficulty,
      masteryScore := ff.masteryScore, totalAttempts := ff.totalAttempts,
      lastReviewedAt := ff.lastReviewedAt }

/- ## Aggregation engine: reference resolution and linking -/

def pairMatchTag : Str := "pair-match".toList
def literalnessTag : Str := "literalness".toList
def flashcardTag : Str := "flashcard".toList

/-- JavaScript a || b on optional strings (empty string is falsy). -/
def jsOrStr (a b : Option Str) : Option Str :=
  match a with
  | some s => if s = [] then b else some s
  | none => b

/-- The tag predicate inside resolveLitRef: canonical form is none of the
reserved marker tags and the raw tag is longer than 2 characters. -/
def validRefTag (rt : JsRuntime) (t : Str) : Bool :=
  decide (canonicalizeLitRef rt (some t) ≠ pairMatchTag) &&
  decide (canonicalizeLitRef rt (some t) ≠ literalnessTag) &&
  decide (canonicalizeLitRef rt (some t) ≠ flashcardTag) &&
  decide (2 < t.length)

/-- A present, non-empty string field (JS truthiness of obj.f). -/
def truthyStr : Option Str → Bool
  | some s => decide (s ≠ [])
  | none => false

/-- A present string whose trim is also non-empty
(JS obj.f && obj.f.trim()). -/
def truthyTrimStr : Option Str → Bool
  | some s => decide (s ≠ []) && decide (trimS s ≠ [])
  | none => false

/-- resolveLitRef from the source: litRef (trim-nonempty), then lawRef
(trim-nonempty), then LIT_REF, then the first valid tag, then the id of the item
unless it carries a generated prefix; empty string when nothing resolves. -/
def resolveLitRef (rt : JsRuntime) (it : AggItem) : Str :=
  if truthyTrimStr it.litRefF then canonicalizeLitRef rt it.litRefF
  else if truthyTrimStr it.lawRefF then canonicalizeLitRef rt it.lawRefF
  else if truthyStr it.LIT_REFF then canonicalizeLitRef rt it.LIT_REFF
  else
    match it.tagsF with
    | some ts =>
      match ts.find? (validRefTag rt) with
      | some t => canonicalizeLitRef rt (some t)
      | none => resolveIdFallback rt it
    | none => resolveIdFallback rt it
where
  resolveIdFallback (rt : JsRuntime) (it : AggItem) : Str :=
    match it.idF with
    | some s =>
      if decide (s ≠ []) && !("q_".toList.isPrefixOf s) &&
          !("fc_".toList.isPrefixOf s) && !("temp_".toList.isPrefixOf s) then
        canonicalizeLitRef rt (some s)
      else []
    | none => []

/-- isLinked from the source: resolved reference equals the target, or some
tag canonicalizes to the target, or the (truthy) lawRef / litRef fields
canonicalize to the target. -/
def isLinked (rt : JsRuntime) (it : AggItem) (targetIdCanonical : Str) : Bool :=
  if targetIdCanonical = [] then false
  else if decide (resolveLitRef rt it ≠ []) &&
      decide (resolveLitRef rt it = targetIdCanonical) then true
  else if (match it.tagsF with
           | some ts => ts.any (fun t =>
               decide (canonicalizeLitRef rt (some t) = targetIdCanonical))
           | none => false) then true
  else if truthyStr it.lawRefF &&
      decide (canonicalizeLitRef rt it.lawRefF = targetIdCanonical) then true
  else if truthyStr it.litRefF &&
      decide (canonicalizeLitRef rt it.litRefF = targetIdCanonical) then true
  else false

/- ## Aggregation engine: gathering and classification -/

/-- Membership test applied to questions by the gather loop:
canonicalizeLitRef(q.lawRef || q.litRef) === targetCanon. -/
def qMatches (rt : JsRuntime) (target : Str) (q : Question) : Bool :=
  decide (canonicalizeLitRef rt (jsOrStr q.lawRef q.litRef) = target)

/-- fc.tags?.find(t => canonicalizeLitRef(t) === targetCanon), as a
membership test. -/
def fcTagHit (rt : JsRuntime) (target : Str) (f : Flashcard) : Bool :=
  match f.tags with
  | some ts => ts.any (fun t => decide (canonicalizeLitRef rt (some t) = target))
  | none => false

/-- The reference computed for a flashcard by the gather loop:
canonicalizeLitRef(fc.litRef) || (tag hit ? targetCanon : ""). -/
def fcRef (rt : JsRuntime) (target : Str) (f : Flashcard) : Str :=
  if canonicalizeLitRef rt f.litRef ≠ [] then canonicalizeLitRef rt f.litRef
  else if fcTagHit rt target f then target
  else []

def fcMatches (rt : JsRuntime) (target : Str) (f : Flashcard) : Bool :=
  decide (fcRef rt target f = target)

/-- The mixed items array: matching questions (in order) followed by
matching flashcards (in order), as pushed by the two gather loops. -/
def matchedItems (rt : JsRuntime) (target : Str) (qs : List Question)
    (fcs : List Flashcard) : List AggItem :=
  (qs.filter (qMatches rt target)).map AggItem.q ++
    (fcs.filter (fcMatches rt target)).map AggItem.fc

inductive SubKind
  | questions
  | gaps
  | flashcards
  | pairs
deriving DecidableEq

def tagsIncludePair : Option (List Str) → Bool
  | some ts => ts.any (fun t => decide (t = pairMatchTag))
  | none => false

/-- Sub-kind classification used while gathering totals: questions split on
the isGapType flag, flashcards on the pair-match tag. -/
def subKindGather : AggItem → SubKind
  | .q q => if q.isGapType.getD false then .gaps else .questions
  | .fc f => if tagsIncludePair f.tags then .pairs else .flashcards

/-- (isGapType in item) && item.isGapType. -/
def hasGapFlag : AggItem → Bool
  | .q q => q.isGapType.getD false
  | .fc _ => false

/-- (questionText in item). -/
def hasQText : AggItem → Bool
  | .q _ => true
  | .fc _ => false

/-- Sub-kind classification used by the status loop, by dynamic
field-presence checks in source order. -/
def subKindStatus (it : AggItem) : SubKind :=
  if hasGapFlag it then .gaps
  else if hasQText it then .questions
  else if tagsIncludePair it.tagsF then .pairs
  else .flashcards

/-- Both classifications agree on the modelled item shapes. -/
theorem subKindStatus_eq_gather (it : AggItem) :
    subKindStatus it = subKindGather it := by
  cases it with
  | q qq =>
    by_cases h : qq.isGapType.getD false = true
    · simp [subKindStatus, subKindGather, hasGapFlag, hasQText, h]
    · simp [subKindStatus, subKindGather, hasGapFlag, hasQText, h]
  | fc ff =>
    simp [subKindStatus, subKindGather, hasGapFlag, hasQText, AggItem.tagsF]

/-- totalAttempts > 0 and a parsed nextReviewDate not after now
(the pending / overdue classification). -/
def isPendingB (now : Int) (it : AggItem) : Bool :=
  decide (itemAttempts it ≠ 0) &&
    (match itemNext it with
     | some t => decide (t ≤ now)
     | none => false)

/-- totalAttempts > 0 and a parsed nextReviewDate strictly after now. -/
def isFutureB (now : Int) (it : AggItem) : Bool :=
  decide (itemAttempts it ≠ 0) &&
    (match itemNext it with
     | some t => decide (now < t)
     | none => false)

structure KindCounts where
  questions : Nat
  gaps : Nat
  flashcards : Nat
  pairs : Nat
deriving DecidableEq

def KindCounts.get (c : KindCounts) : SubKind → Nat
  | .questions => c.questions
  | .gaps => c.gaps
  | .flashcards => c.flashcards
  | .pairs => c.pairs

def kindCountsOf (f : AggItem → SubKind) (l : List AggItem) : KindCounts :=
  { questions := l.countP (fun it => decide (f it = .questions)),
    gaps := l.countP (fun it => decide (f it = .gaps)),
    flashcards := l.countP (fun it => decide (f it = .flashcards)),
    pairs := l.countP (fun it => decide (f it = .pairs)) }

theorem kindCountsOf_get (f : AggItem → SubKind) (l : List AggItem)
    (k : SubKind) :
    (kindCountsOf f l).get k = l.countP (fun it => decide (f it = k)) := by
  cases k <;> rfl

/-- The running minimum over a scanned list, with strict < comparison (the
first occurrence of the minimum is kept); none models the initial
Infinity. -/
def jsListMin (l : List Int) : Option Int :=
  l.foldl (fun acc t =>
    match acc with
    | none => some t
    | some m => if t < m then some t else some m) none

/-- The future due timestamps tracked by the status loop. -/
def futureTimes (now : Int) (l : List AggItem) : List Int :=
  l.filterMap (fun it =>
    if itemAttempts it ≠ 0 then
      match itemNext it with
      | some t => if now < t then some t else none
      | none => none
    else none)

/-- The candidate timestamps of the second (oldest-overdue) pass: every
item whose date parses and is not after now, with no totalAttempts
filter. -/
def overdueScanTimes (now : Int) (l : List AggItem) : List Int :=
  l.filterMap (fun it =>
    match itemNext it with
    | some t => if t ≤ now then some t else none
    | none => none)

/-- The due timestamps of the actually overdue items (attempted and due),
used to state what the label ought to reference. -/
def overdueDueTimes (now : Int) (l : List AggItem) : List Int :=
  l.filterMap (fun it =>
    if itemAttempts it ≠ 0 then
      match itemNext it with
      | some t => if t ≤ now then some t else none
      | none => none
    else none)

/- ## Aggregation engine: labels and result -/

/-- The nextReviewLabel values.  atrasada t renders as
"ATRASADA (dd/mm hh:mm)" for timestamp t; futureAt t renders as
"Hoje às hh:mm" when t falls on the current local calendar day and as
"dd/mm às hh:mm" otherwise — both are locale renderings of the single
timestamp t, so the embedding carries the timestamp. -/
inductive NextLabel
  | dash
  | novo
  | agora
  | concluido
  | iniciar
  | atrasada (t : Int)
  | futureAt (t : Int)
deriving DecidableEq

/-- The nextReviewLabel / nextReviewDate pair computed after the status
loop: first from the minimum future due date (or the
AGORA/Concluído/Iniciar fallback), then overridden by the oldest timestamp
of the second overdue scan whenever overdue items exist. -/
def aggLabelDate (now : Int) (items : List AggItem) : NextLabel × Option Int :=
  let overdueItems := items.countP (isPendingB now)
  let reviewedItems := items.countP (fun it => decide (itemAttempts it ≠ 0))
  let base : NextLabel × Option Int :=
    match jsListMin (futureTimes now items) with
    | some t =>
      if now < t then (NextLabel.futureAt t, some t) else (NextLabel.dash, none)
    | none =>
      (if 0 < overdueItems then NextLabel.agora
       else if 0 < reviewedItems then NextLabel.concluido
       else NextLabel.iniciar, none)
  if 0 < overdueItems then
    match jsListMin (overdueScanTimes now items) with
    | some o => (NextLabel.atrasada o, some o)
    | none => base
  else base

/-- Stable insertion into a list sorted ascending by parsed due date
(equal keys keep the earlier element first, like the stable Array sort of
the source; pending items always carry a parsed date, the getD default is
never reached on them). -/
def insertByDue (key : α → Option Int) (a : α) : List α → List α
  | [] => [a]
  | b :: bs =>
    if (key b).getD 0 ≤ (key a).getD 0 then b :: insertByDue key a bs
    else a :: b :: bs

def sortByDue (key : α → Option Int) (l : List α) : List α :=
  l.foldr (insertByDue key) []

/-- LitRefSmartStatus from the source. -/
structure LitRefSmartStatus where
  domain : ℝ
  mastery : ℝ
  nextReviewDate : Option Int
  nextReviewLabel : NextLabel
  totalItems : Nat
  reviewedItems : Nat
  overdueItems : Nat
  countsTotal : KindCounts
  countsPending : KindCounts
  countsNotStarted : KindCounts
  pendingQuestions : List Question
  pendingGaps : List Question
  pendingFlashcards : List Flashcard
  pendingPairs : List Flashcard
  nextDueAtFuture : Option Int

/-- The freshly initialised result: all zeroes, em-dash label. -/
def emptyStatus : LitRefSmartStatus :=
  { domain := 0, mastery := 0, nextReviewDate := none,
    nextReviewLabel := NextLabel.dash, totalItems := 0, reviewedItems := 0,
    overdueItems := 0, countsTotal := ⟨0, 0, 0, 0⟩,
    countsPending := ⟨0, 0, 0, 0⟩, countsNotStarted := ⟨0, 0, 0, 0⟩,
    pendingQuestions := [], pendingGaps := [], pendingFlashcards := [],
    pendingPairs := [], nextDueAtFuture := none }

/-- The pending list of a given sub-kind, in scan order. -/
def pendingListQ (now : Int) (items : List AggItem) (k : SubKind) :
    List Question :=
  (items.filter (isPendingB now)).filterMap
    (fun it => if subKindStatus it = k then it.toQ else none)

def pendingListFc (now : Int) (items : List AggItem) (k : SubKind) :
    List Flashcard :=
  (items.filter (isPendingB now)).filterMap
    (fun it => if subKindStatus it = k then it.toFc else none)

/-- getLitRefSmartStatus from the source.  now is the sampled current time
(millisecond timestamp); the returned structure mirrors the
result object of the source.  An empty canonical target returns the initialised result
unchanged (label dash); an empty matched group returns it with label Novo;
otherwise counts, averages, pending lists, the minimum future due date and
the label/date pair are computed from the matched items. -/
noncomputable def getLitRefSmartStatus (rt : JsRuntime) (litRef : Option Str)
    (allQuestions : List Question) (allFlashcards : List Flashcard)
    (now : Int) : LitRefSmartStatus :=
  let targetCanon := canonicalizeLitRef rt litRef
  if targetCanon = [] then emptyStatus
  else
    let items := matchedItems rt targetCanon allQuestions allFlashcards
    if items.length = 0 then { emptyStatus with nextReviewLabel := NextLabel.novo }
    else
      { domain :=
          if 0 < items.length then
            (items.map (fun it =>
              if itemAttempts it ≠ 0 then
                calculateCurrentDomain (now : ℝ) it.toSrs
              else 0)).sum / items.length
          else 0,
        mastery :=
          if 0 < items.length then
            (items.map (fun it =>
              if itemAttempts it ≠ 0 then jsOr it.toSrs.masteryScore 0
              else 0)).sum / items.length
          else 0,
        nextReviewDate := (aggLabelDate now items).2,
        nextReviewLabel := (aggLabelDate now items).1,
        totalItems := items.length,
        reviewedItems := items.countP (fun it => decide (itemAttempts it ≠ 0)),
        overdueItems := items.countP (isPendingB now),
        countsTotal := kindCountsOf subKindGather items,
        countsPending := kindCountsOf subKindStatus (items.filter (isPendingB now)),
        countsNotStarted := kindCountsOf subKindStatus
          (items.filter (fun it => decide (itemAttempts it = 0))),
        pendingQuestions := sortByDue Question.nextReviewDate
          (pendingListQ now items SubKind.questions),
        pendingGaps := sortByDue Question.nextReviewDate
          (pendingListQ now items SubKind.gaps),
        pendingFlashcards := sortByDue Flashcard.nextReviewDate
          (pendingListFc now items SubKind.flashcards),
        pendingPairs := sortByDue Flashcard.nextReviewDate
          (pendingListFc now items SubKind.pairs),
        nextDueAtFuture := jsListMin (futureTimes now items) }

/- ## C7: empty canonical target short-circuits -/

/-- C7 (amended).  For every target whose canonicalization is the empty
string, the aggregate query returns, without depending on the item
collections, the all-zero initialised status (all counts zero, empty
pending lists, domain and mastery 0, no next-due pointer) whose display
label is the em-dash placeholder (not "Novo": "Novo" is only produced for
a non-empty canonical target that matches no items). -/
theorem empty_target_zero_status (rt : JsRuntime) (litRef : Option Str)
    (qs : List Question) (fcs : List Flashcard) (now : Int)
    (h : canonicalizeLitRef rt litRef = []) :
    getLitRefSmartStatus rt litRef qs fcs now = emptyStatus := by
  simp [getLitRefSmartStatus, h]

def qBlank : Question := { questionText := "w".toList }

/-- Witness for C7: the short-circuit theorem at an absent reference and a
non-empty question collection. -/
theorem empty_target_zero_status_witness :
    canonicalizeLitRef idRuntime none = [] ∧
    getLitRefSmartStatus idRuntime none [qBlank] [] 0 = emptyStatus :=
  ⟨rfl, empty_target_zero_status idRuntime none [qBlank] [] 0 rfl⟩

/-- Counterexample for C7 as stated: with an empty target string the
returned label is the em-dash placeholder, not "Novo". -/
theorem empty_target_label_counterexample :
    (getLitRefSmartStatus idRuntime (some []) [] [] 0).nextReviewLabel =
      NextLabel.dash ∧ NextLabel.dash ≠ NextLabel.novo :=
  ⟨rfl, by decide⟩

/- ## C5: group membership and sub-kind buckets -/

theorem kindCountsOf_sum (f : AggItem → SubKind) (l : List AggItem) :
    (kindCountsOf f l).questions + (kindCountsOf f l).gaps +
      (kindCountsOf f l).flashcards + (kindCountsOf f l).pairs = l.length := by
  induction l with
  | nil => rfl
  | cons x t ih =>
    simp only [kindCountsOf, List.countP_cons] at ih ⊢
    cases h : f x <;> simp [h] <;> omega

/-- C5 (amended).  The aggregation does not use isLinked: a question is in
the target group iff canonicalize(lawRef || litRef) equals the target, and
a flashcard iff canonicalize(litRef) equals the target or (litRef
canonicalizes to empty and some tag canonicalizes to the target) — the
qMatches / fcMatches tests below.  Every matched item falls in exactly one
sub-kind bucket: the four total counts sum to the number of matched
items. -/
theorem aggregation_membership_and_buckets (rt : JsRuntime)
    (qs : List Question) (fcs : List Flashcard) :
    (∀ (target : Str) (q : Question),
        AggItem.q q ∈ matchedItems rt target qs fcs ↔
          q ∈ qs ∧ qMatches rt target q = true) ∧
    (∀ (target : Str) (f : Flashcard),
        AggItem.fc f ∈ matchedItems rt target qs fcs ↔
          f ∈ fcs ∧ fcMatches rt target f = true) ∧
    (∀ (litRef : Option Str) (now : Int),
        (getLitRefSmartStatus rt litRef qs fcs now).countsTotal.questions +
          (getLitRefSmartStatus rt litRef qs fcs now).countsTotal.gaps +
          (getLitRefSmartStatus rt litRef qs fcs now).countsTotal.flashcards +
          (getLitRefSmartStatus rt litRef qs fcs now).countsTotal.pairs =
          (getLitRefSmartStatus rt litRef qs fcs now).totalItems) := by
  refine ⟨?_, ?_, ?_⟩
  · intro target q
    simp [matchedItems, List.mem_filter]
  · intro target f
    simp [matchedItems, List.mem_filter]
  · intro litRef now
    by_cases h1 : canonicalizeLitRef rt litRef = []
    · simp [getLitRefSmartStatus, h1, emptyStatus]
    · by_cases h2 :
          (matchedItems rt (canonicalizeLitRef rt litRef) qs fcs).length = 0
      · simp [getLitRefSmartStatus, h1, h2, emptyStatus]
      · simp [getLitRefSmartStatus, h1, h2]
        exact kindCountsOf_sum _ _

/-- Question carrying the target only in its tags: isLinked resolves it via
the tag path, but the membership test of the aggregation itself does not. -/
def qTagOnly : Question :=
  { questionText := "w".toList, tags := some ["alpha".toList] }

/-- Counterexample for C5 as stated: this item isLinked to the target, yet
the aggregation leaves it out of the group entirely (totalItems = 0). -/
theorem isLinked_not_used_counterexample :
    isLinked idRuntime (AggItem.q qTagOnly) ("alpha".toList) = true ∧
    (getLitRefSmartStatus idRuntime (some ("alpha".toList)) [qTagOnly] []
      0).totalItems = 0 := by
  constructor
  · rfl
  · rfl

/- ## C4: count conservation -/

/-- The group of items actually aggregated by a query: empty when the
target canonicalizes to the empty string (the query short-circuits before
scanning), otherwise the matched items. -/
def aggItems (rt : JsRuntime) (litRef : Option Str) (qs : List Question)
    (fcs : List Flashcard) : List AggItem :=
  if canonicalizeLitRef rt litRef = [] then []
  else matchedItems rt (canonicalizeLitRef rt litRef) qs fcs

theorem countP_split3 {α : Type} (l : List α) (p a b c : α → Bool)
    (h : ∀ x ∈ l, (if p x then 1 else 0) =
      ((if a x then 1 else 0) + (if b x then 1 else 0) +
        (if c x then 1 else 0) : Nat)) :
    l.countP p = l.countP a + l.countP b + l.countP c := by
  induction l with
  | nil => rfl
  | cons x t ih =>
    have hx := h x (List.mem_cons_self x t)
    have ht := ih (fun y hy => h y (List.mem_cons_of_mem x hy))
    simp only [List.countP_cons]
    omega

/-- C4 (amended).  Count conservation holds per sub-kind provided every
aggregated item with attempts carries a parseable nextReviewDate (an
attempted item whose date is absent or unparseable is dropped from all
three status buckets by the source, which breaks the identity — see the
counterexample): total = pending + notStarted + future, where future
counts the aggregated items of the sub-kind with attempts and a due date
strictly after now. -/
theorem aggregate_count_conservation (rt : JsRuntime) (litRef : Option Str)
    (qs : List Question) (fcs : List Flashcard) (now : Int)
    (hdates : ∀ it ∈ aggItems rt litRef qs fcs,
        itemAttempts it ≠ 0 → (itemNext it).isSome = true) :
    ∀ k : SubKind,
      ((getLitRefSmartStatus rt litRef qs fcs now).countsTotal).get k =
        ((getLitRefSmartStatus rt litRef qs fcs now).countsPending).get k +
          ((getLitRefSmartStatus rt litRef qs fcs now).countsNotStarted).get k +
          (aggItems rt litRef qs fcs).countP
            (fun it => isFutureB now it && decide (subKindStatus it = k)) := by
  intro k
  by_cases h1 : canonicalizeLitRef rt litRef = []
  · simp [getLitRefSmartStatus, h1, emptyStatus, aggItems]
    cases k <;> rfl
  · have hagg : aggItems rt litRef qs fcs =
        matchedItems rt (canonicalizeLitRef rt litRef) qs fcs := by
      simp [aggItems, h1]
    by_cases h2 :
        (matchedItems rt (canonicalizeLitRef rt litRef) qs fcs).length = 0
    · have hnil : matchedItems rt (canonicalizeLitRef rt litRef) qs fcs = [] :=
        List.length_eq_zero.mp h2
      simp [getLitRefSmartStatus, h1, h2, emptyStatus, hagg, hnil]
      cases k <;> rfl
    · rw [hagg] at hdates ⊢
      simp only [getLitRefSmartStatus]
      rw [if_neg h1, if_neg h2]
      simp only [kindCountsOf_get, List.countP_filter]
      have hgs : (matchedItems rt (canonicalizeLitRef rt litRef) qs
          fcs).countP (fun it => decide (subKindGather it = k)) =
          (matchedItems rt (canonicalizeLitRef rt litRef) qs fcs).countP
            (fun it => decide (subKindStatus it = k)) := by
        apply List.countP_congr
        intro x _
        rw [subKindStatus_eq_gather x]
      rw [hgs]
      apply countP_split3
      intro x hx
      by_cases hk : subKindStatus x = k
      · by_cases ha : itemAttempts x = 0
        · simp [hk, ha, isPendingB, isFutureB]
        · have hsome := hdates x hx ha
          cases hnext : itemNext x with
          | none => rw [hnext] at hsome; simp at hsome
          | some t0 =>
            by_cases ht : t0 ≤ now
            · have hnf : ¬(now < t0) := by omega
              simp [hk, ha, isPendingB, isFutureB, hnext, ht, hnf]
            · have hnf : now < t0 := by omega
              simp [hk, ha, isPendingB, isFutureB, hnext, ht, hnf]
      · simp [hk]

def qDated : Question :=
  { questionText := "w".toList, lawRef := some ("x".toList),
    totalAttempts := some 1, nextReviewDate := some 5 }

/-- Witness for C4: the conservation theorem on a one-question collection
whose attempted item carries a parsed due date. -/
theorem aggregate_count_conservation_witness :
    (∀ it ∈ aggItems idRuntime (some ("x".toList)) [qDated] [],
        itemAttempts it ≠ 0 → (itemNext it).isSome = true) ∧
    ∀ k : SubKind,
      ((getLitRefSmartStatus idRuntime (some ("x".toList)) [qDated] []
          0).countsTotal).get k =
        ((getLitRefSmartStatus idRuntime (some ("x".toList)) [qDated] []
            0).countsPending).get k +
          ((getLitRefSmartStatus idRuntime (some ("x".toList)) [qDated] []
              0).countsNotStarted).get k +
          (aggItems idRuntime (some ("x".toList)) [qDated] []).countP
            (fun it => isFutureB 0 it && decide (subKindStatus it = k)) :=
  ⟨by decide,
    aggregate_count_conservation idRuntime (some ("x".toList)) [qDated] [] 0
      (by decide)⟩

def qNoDate : Question :=
  { questionText := "w".toList, lawRef := some ("x".toList),
    totalAttempts := some 1 }

/-- Counterexample for C4 as stated: an attempted matched question without
a parseable nextReviewDate is counted in the total but in none of pending,
notStarted or future, so the identity fails (1 ≠ 0 + 0 + 0). -/
theorem count_conservation_counterexample :
    (getLitRefSmartStatus idRuntime (some ("x".toList)) [qNoDate] []
        0).countsTotal.questions = 1 ∧
    (getLitRefSmartStatus idRuntime (some ("x".toList)) [qNoDate] []
        0).countsPending.questions = 0 ∧
    (getLitRefSmartStatus idRuntime (some ("x".toList)) [qNoDate] []
        0).countsNotStarted.questions = 0 ∧
    (aggItems idRuntime (some ("x".toList)) [qNoDate] []).countP
      (fun it => isFutureB 0 it && decide (subKindStatus it = SubKind.questions)) =
      0 := by
  refine ⟨rfl, rfl, rfl, rfl⟩

/- ## C6: overdue label references the oldest scanned due date -/

theorem overdueDueTimes_length (now : Int) (l : List AggItem) :
    (overdueDueTimes now l).length = l.countP (isPendingB now) := by
  induction l with
  | nil => rfl
  | cons x t ih =>
    simp only [overdueDueTimes] at ih ⊢
    rw [List.filterMap_cons, List.countP_cons]
    by_cases ha : itemAttempts x = 0
    · simp [ha, isPendingB]
      simpa using ih
    · cases hnext : itemNext x with
      | none =>
        simp [ha, hnext, isPendingB]
        simpa using ih
      | some t0 =>
        by_cases ht : t0 ≤ now
        · simp [ha, hnext, ht, isPendingB]
          simpa using ih
        · simp [ha, hnext, ht, isPendingB]
          simpa using ih

/-- When unattempted items carry no parsed due date (the data-model shape),
the candidate list of the second pass coincides with the overdue due dates. -/
theorem overdueScanTimes_eq_due (now : Int) (l : List AggItem)
    (hclean : ∀ it ∈ l, itemAttempts it = 0 → itemNext it = none) :
    overdueScanTimes now l = overdueDueTimes now l := by
  induction l with
  | nil => rfl
  | cons x t ih =>
    have ht := ih (fun y hy => hclean y (List.mem_cons_of_mem x hy))
    simp only [overdueScanTimes, overdueDueTimes] at ht ⊢
    rw [List.filterMap_cons, List.filterMap_cons]
    by_cases ha : itemAttempts x = 0
    · have hx := hclean x (List.mem_cons_self x t) ha
      simp [hx, ha]
      simpa using ht
    · cases hnext : itemNext x with
      | none =>
        simp [ha, hnext]
        simpa using ht
      | some t0 =>
        by_cases hle : t0 ≤ now
        · simp [ha, hnext, hle]
          simpa using ht
        · simp [ha, hnext, hle]
          simpa using ht

/-- C6 (amended).  Whenever the matched group of a non-empty canonical
target contains an overdue item and the group satisfies the data-model
shape (unattempted items carry no due date), the label is
ATRASADA(dd/mm hh:mm) formatted from T, the minimum overdue due timestamp
found by the strict-< linear scan (first minimum encountered wins), and
nextReviewDate is set to T.  Without the data-model hypothesis the scan,
which does not filter on attempts, can pick the date of a non-overdue item
(see the counterexample). -/
theorem overdue_label_oldest (rt : JsRuntime) (litRef : Option Str)
    (qs : List Question) (fcs : List Flashcard) (now T : Int)
    (htarget : ¬(canonicalizeLitRef rt litRef = []))
    (hclean : ∀ it ∈ matchedItems rt (canonicalizeLitRef rt litRef) qs fcs,
        itemAttempts it = 0 → itemNext it = none)
    (hmin : jsListMin (overdueDueTimes now
        (matchedItems rt (canonicalizeLitRef rt litRef) qs fcs)) = some T) :
    (getLitRefSmartStatus rt litRef qs fcs now).nextReviewLabel =
      NextLabel.atrasada T ∧
    (getLitRefSmartStatus rt litRef qs fcs now).nextReviewDate = some T := by
  set items := matchedItems rt (canonicalizeLitRef rt litRef) qs fcs with hitems
  have hdueNe : overdueDueTimes now items ≠ [] := by
    intro h0
    rw [h0] at hmin
    simp [jsListMin] at hmin
  have hover : 0 < items.countP (isPendingB now) := by
    rw [← overdueDueTimes_length now items]
    exact List.length_pos.mpr hdueNe
  have hlen : ¬(items.length = 0) := by
    intro h0
    rw [List.length_eq_zero.mp h0] at hdueNe
    exact hdueNe rfl
  have hlabel : aggLabelDate now items = (NextLabel.atrasada T, some T) := by
    unfold aggLabelDate
    rw [overdueScanTimes_eq_due now items hclean, hmin]
    simp [hover]
  constructor
  · simp only [getLitRefSmartStatus]
    rw [if_neg htarget, if_neg (by rw [← hitems]; exact hlen)]
    rw [← hitems, hlabel]
  · simp only [getLitRefSmartStatus]
    rw [if_neg htarget, if_neg (by rw [← hitems]; exact hlen)]
    rw [← hitems, hlabel]

def qOverdue : Question :=
  { questionText := "w".toList, lawRef := some ("x".toList),
    totalAttempts := some 1, nextReviewDate := some (-5) }

/-- Witness for C6: the amended theorem on a group with one overdue
question due at timestamp -5 queried at time 0. -/
theorem overdue_label_oldest_witness :
    ¬(canonicalizeLitRef idRuntime (some ("x".toList)) = []) ∧
    (∀ it ∈ matchedItems idRuntime (canonicalizeLitRef idRuntime
        (some ("x".toList))) [qOverdue] [],
      itemAttempts it = 0 → itemNext it = none) ∧
    jsListMin (overdueDueTimes 0 (matchedItems idRuntime
      (canonicalizeLitRef idRuntime (some ("x".toList))) [qOverdue] [])) =
      some (-5) ∧
    (getLitRefSmartStatus idRuntime (some ("x".toList)) [qOverdue] []
        0).nextReviewLabel = NextLabel.atrasada (-5) :=
  ⟨by decide, by decide, by decide,
    (overdue_label_oldest idRuntime (some ("x".toList)) [qOverdue] [] 0 (-5)
      (by decide) (by decide) (by decide)).1⟩

def qOverdueA : Question :=
  { questionText := "w".toList, lawRef := some ("x".toList),
    totalAttempts := some 1, nextReviewDate := some (-1000) }

/-- Unattempted question that nevertheless carries a past due date (dirty
imported data). -/
def qDirtyB : Question :=
  { questionText := "w".toList, lawRef := some ("x".toList),
    nextReviewDate := some (-5000) }

/-- Counterexample for C6 as stated: the only overdue item is due at
-1000, but the label is formatted from -5000, the past date of an
unattempted item picked up by the unfiltered second pass. -/
theorem overdue_label_counterexample :
    (getLitRefSmartStatus idRuntime (some ("x".toList)) [qOverdueA, qDirtyB]
        [] 0).nextReviewLabel = NextLabel.atrasada (-5000) ∧
    jsListMin (overdueDueTimes 0 (matchedItems idRuntime
      (canonicalizeLitRef idRuntime (some ("x".toList)))
      [qOverdueA, qDirtyB] [])) = some (-1000) ∧
    NextLabel.atrasada (-5000) ≠ NextLabel.atrasada (-1000) := by
  refine ⟨rfl, rfl, by decide⟩

end Miaaula
